import Mathlib

/-!
Verification of the voice-assistant repository (Musfiqs/Voice-assistant).

Shallow embedding of the Python sources:
* `src/ai_assistant.py` — conversation store (`AIAssistant`): history list,
  `get_response` append/trim behaviour, `clear_conversation`,
  `set_system_prompt`.
* `src/voice_engine.py` — `VoiceEngine`: busy flags, voice-mode selection and
  TTS configuration, the alien-voice text transform, `stop_speaking`.
* `src/main_window.py` — `VoiceAssistantApp`: the event handlers that form the
  interaction state machine (`on_circle_clicked`, `on_speech_recognized`,
  `on_ai_response`, `on_speech_complete`, `clear_conversation`).

Python strings are modelled as `String` (or `List Char` where splitting
matters), dicts with fixed keys as structures, and each background thread's
full run (flag set, body, callback, `finally` flag reset) as one atomic event
applied to the application state, which corresponds to delivering the thread's
single-shot callback together with its flag updates.
-/

namespace VoiceAssistant

/-- Message roles used in `conversation_history` entries
(`"system"`, `"user"`, `"assistant"` in the Python dicts). -/
inductive Role where
  | system
  | user
  | assistant
deriving DecidableEq, Repr

/-- One entry of `conversation_history`: a dict
`{"role": ..., "content": ...}` in `src/ai_assistant.py`. -/
structure Msg where
  role : Role
  content : String
deriving DecidableEq, Repr

/-- The system prompt installed by `AIAssistant.__init__`
(`src/ai_assistant.py`, lines 18-23). -/
def SYSTEM_PROMPT : String :=
  "You are ARIA, a futuristic AI voice assistant. You are helpful, intelligent, and have a slightly futuristic personality. Keep your responses conversational and engaging, but concise enough for speech. You can help with various tasks, answer questions, and have friendly conversations. Always be respectful and helpful."

/-- Initial `conversation_history` built by `AIAssistant.__init__`:
a single system message. -/
def init_history : List Msg := [⟨Role.system, SYSTEM_PROMPT⟩]

/-- The history-trimming step of `AIAssistant.get_response`
(`src/ai_assistant.py`, lines 60-62):
`if len(h) > 21: h = [h[0]] + h[-20:]`.
`[h[0]]` is `h.take 1` (the guard `len(h) > 21` makes `h` nonempty), and
`h[-20:]` is `h.drop (h.length - 20)`. -/
def trimHistory (h : List Msg) : List Msg :=
  if h.length > 21 then h.take 1 ++ h.drop (h.length - 20) else h

/-- Effect of a successful `AIAssistant.get_response` run on
`conversation_history` (`src/ai_assistant.py`, lines 27-69): append the user
message, append the assistant message, then trim. -/
def get_response_success (u a : String) (h : List Msg) : List Msg :=
  trimHistory ((h ++ [⟨Role.user, u⟩]) ++ [⟨Role.assistant, a⟩])

/-- Effect of a failed `AIAssistant.get_response` run on
`conversation_history` (`src/ai_assistant.py`, lines 71-80): the user message
was already appended when the exception is raised by the completion call, and
the `except` branch performs no further history mutation — in particular no
trim. -/
def get_response_failure (u : String) (h : List Msg) : List Msg :=
  h ++ [⟨Role.user, u⟩]

/-- `AIAssistant.clear_conversation` (`src/ai_assistant.py`, lines 88-90):
`h = [h[0]]`, i.e. `h.take 1` (on the empty history Python would raise
`IndexError`, which cannot happen since construction makes it nonempty). -/
def clear_conversation (h : List Msg) : List Msg := h.take 1

/-- `AIAssistant.set_system_prompt` (`src/ai_assistant.py`):
`h[0]["content"] = prompt`, replacing the content of the first entry and
keeping its role. On an empty history Python would raise `IndexError`;
that case is modelled as the empty history and is unreachable from
construction. -/
def set_system_prompt (p : String) (h : List Msg) : List Msg :=
  match h with
  | [] => []
  | m :: t => ⟨m.role, p⟩ :: t

/-- The operations that mutate `conversation_history` over the lifetime of an
`AIAssistant` object. -/
inductive StoreOp where
  | getSuccess (u a : String)
  | getFailure (u : String)
  | clear
  | setPrompt (p : String)

/-- Apply one store operation to the history. -/
def applyOp (h : List Msg) : StoreOp → List Msg
  | .getSuccess u a => get_response_success u a h
  | .getFailure u => get_response_failure u h
  | .clear => clear_conversation h
  | .setPrompt p => set_system_prompt p h

/-- Run a sequence of store operations starting from the freshly constructed
history. -/
def runOps (ops : List StoreOp) : List Msg := ops.foldl applyOp init_history

/-- The first element of the history exists and has role `system`. -/
def HeadSystem (h : List Msg) : Prop :=
  ∃ c, h.head? = some ⟨Role.system, c⟩

/-!
### The interaction state machine

State of a `VoiceAssistantApp` together with its `VoiceEngine` and
`AIAssistant` (`src/main_window.py`, `src/voice_engine.py`,
`src/ai_assistant.py`). The presentation-layer pieces the handlers mutate are
the two labels, the animated circle's state string, and the conversation
display; the coordination flags are `is_listening` / `is_speaking` on the
`VoiceEngine` and `is_processing` on the `AIAssistant`.
-/

structure AppState where
  is_listening : Bool
  is_speaking : Bool
  is_processing : Bool
  conversation_history : List Msg
  status_label : String
  status_bar : String
  circle_state : String
  conversation_display : List (String × String)
deriving DecidableEq, Repr

/-- State right after `VoiceAssistantApp.__init__`: engine flags false,
`AIAssistant` freshly constructed, circle idle
(`AnimatedCircle.__init__` sets state `"idle"`), labels as created by
`init_ui` / `create_status_section`. -/
def initialState : AppState :=
  { is_listening := false
    is_speaking := false
    is_processing := false
    conversation_history := init_history
    status_label := "Click the circle to start voice interaction"
    status_bar := "Ready"
    circle_state := "idle"
    conversation_display := [] }

/-- `VoiceAssistantApp.on_circle_clicked` (`src/main_window.py`, lines
215-225): guarded by `is_listening or is_speaking`; otherwise sets the
labels, the circle state, and starts `listen_for_speech`, whose
`listen_thread` sets `is_listening = True`. -/
def on_circle_clicked (s : AppState) : AppState :=
  if s.is_listening || s.is_speaking then s
  else
    { s with
      status_label := "Listening... Speak now!"
      status_bar := "Listening for voice input..."
      circle_state := "listening"
      is_listening := true }

/-- Delivery of a transcription failure: `listen_thread` invokes
`callback(None, error_msg)`, so `on_speech_recognized` takes its error
branch (`src/main_window.py`, lines 227-233), then the thread's `finally`
clears `is_listening`. -/
def on_speech_error (err : String) (s : AppState) : AppState :=
  { s with
    status_label := "Error: " ++ err
    status_bar := "Ready"
    circle_state := "idle"
    is_listening := false }

/-- Delivery of a transcription success: `on_speech_recognized` with
`error = None` (`src/main_window.py`, lines 235-245). `if text:` is Python
truthiness, i.e. the non-empty check. On success the handler sets the labels
and circle, appends to the conversation display, and calls
`AIAssistant.get_response`, whose `process_thread` sets
`is_processing = True` and appends the user message to the history before
issuing the completion call. The listen thread's `finally` then clears
`is_listening`. -/
def on_speech_recognized (text : String) (s : AppState) : AppState :=
  if text ≠ "" then
    { s with
      status_label := "Processing your request..."
      status_bar := "Getting AI response..."
      circle_state := "processing"
      conversation_display := s.conversation_display ++ [("You", text)]
      is_processing := true
      conversation_history := s.conversation_history ++ [⟨Role.user, text⟩]
      is_listening := false }
  else { s with is_listening := false }

/-- Delivery of a completion success: the rest of `process_thread`
(`src/ai_assistant.py`, lines 53-69) appends the assistant message and
trims, then `callback(ai_response, None)` runs
`VoiceAssistantApp.on_ai_response` (`src/main_window.py`, lines 247-262):
`if response:` (non-empty check) appends to the display, sets the labels,
and calls `VoiceEngine.speak`, whose `speak_thread` sets
`is_speaking = True`. Finally `process_thread`'s `finally` clears
`is_processing`. Note the handler never changes the circle state here. -/
def on_ai_success (resp : String) (s : AppState) : AppState :=
  let h := trimHistory (s.conversation_history ++ [⟨Role.assistant, resp⟩])
  if resp ≠ "" then
    { s with
      conversation_history := h
      conversation_display := s.conversation_display ++ [("ARIA", resp)]
      status_label := "Speaking response..."
      status_bar := "Playing AI response..."
      is_speaking := true
      is_processing := false }
  else
    { s with conversation_history := h, is_processing := false }

/-- Delivery of a completion failure: `process_thread`'s `except` branch
(`src/ai_assistant.py`, lines 71-80) builds
`error_msg = "AI Error: " + str(e)` and invokes `callback(None, error_msg)`,
so `on_ai_response` takes its error branch (`src/main_window.py`, lines
247-253), prefixing `"AI Error: "` once more; then `finally` clears
`is_processing`. No history mutation happens on this path. -/
def on_ai_error (e : String) (s : AppState) : AppState :=
  { s with
    status_label := "AI Error: " ++ ("AI Error: " ++ e)
    status_bar := "Ready"
    circle_state := "idle"
    is_processing := false }

/-- Delivery of a playback success: `speak_thread` invokes `callback()`,
i.e. `VoiceAssistantApp.on_speech_complete` (`src/main_window.py`, lines
264-268), then the thread's `finally` clears `is_speaking`. -/
def on_speech_complete (s : AppState) : AppState :=
  { s with
    status_label := "Click the circle to start voice interaction"
    status_bar := "Ready"
    circle_state := "idle"
    is_speaking := false }

/-- Delivery of a playback failure: `speak_thread`'s `except` branch
(`src/voice_engine.py`, lines 108-110) only prints `"TTS Error: ..."` to the
console — it never invokes the callback and touches no label or circle
state — and the `finally` clears `is_speaking`. -/
def on_tts_error (s : AppState) : AppState :=
  { s with is_speaking := false }

/-- `VoiceEngine.stop_speaking` (`src/voice_engine.py`, lines 135-141):
stops the TTS engine and clears `is_speaking`; no label, circle, or history
mutation. -/
def stop_speaking (s : AppState) : AppState :=
  { s with is_speaking := false }

/-- `VoiceAssistantApp.clear_conversation` (`src/main_window.py`): clears the
display, resets the `AIAssistant` history to its first entry, and sets the
status bar. -/
def clear_conversation_app (s : AppState) : AppState :=
  { s with
    conversation_display := []
    conversation_history := clear_conversation s.conversation_history
    status_bar := "Conversation cleared" }

/-! Concrete reachable states used by the counterexamples: the Scenario-A
trace `Idle → click → transcription "hello" → completion "hi there"`. -/

/-- State while listening, after a click in the initial state. -/
def sListen : AppState := on_circle_clicked initialState

/-- State while the completion call is in flight (the listen thread has
exited, so `is_listening` is back to `False`). -/
def sProc : AppState := on_speech_recognized "hello" sListen

/-- State while the TTS playback is running. -/
def sSpeak : AppState := on_ai_success "hi there" sProc

/-- Concrete history of 22 entries used to exercise the trim branch. -/
def hist22 : List Msg := ⟨Role.system, "s"⟩ :: List.replicate 21 ⟨Role.user, "x"⟩

/-- Concrete short history used to exercise the no-trim branch. -/
def hist3 : List Msg :=
  [⟨Role.system, "s"⟩, ⟨Role.user, "u"⟩, ⟨Role.assistant, "a"⟩]

/-- Concrete history exactly at the cap of 21 entries. -/
def hist21 : List Msg := ⟨Role.system, "s"⟩ :: List.replicate 20 ⟨Role.user, "x"⟩

/-!
### Voice-mode selection (`VoiceEngine.set_voice_mode`)

The pyttsx3 properties written by `_configure_tts_voice`. The float volume
`0.9` is stored in tenths. -/

structure TtsConfig where
  voice : String
  rate : Nat
  volume_tenths : Nat
deriving DecidableEq, Repr

/-- The `VoiceEngine` fields relevant to mode selection
(`src/voice_engine.py`, lines 13-24): the current mode string, the two busy
flags, and the TTS engine's configuration. -/
structure EngineState where
  current_voice_mode : String
  is_listening : Bool
  is_speaking : Bool
  tts : TtsConfig
deriving DecidableEq, Repr

/-- `VOICE_MODES` from `src/config.py`: mode name ↦ (rate, pitch in tenths).
`Male: rate 200, pitch 0.5; Female: 180, 0.8; Alien: 150, 0.3`. -/
def VOICE_MODES : List (String × Nat × Nat) :=
  [("Male", 200, 5), ("Female", 180, 8), ("Alien", 150, 3)]

/-- `VoiceEngine._configure_tts_voice` (`src/voice_engine.py`, lines 32-45):
looks up `VOICE_MODES[current_voice_mode]` (a `KeyError`, modelled `none`,
if the mode is unknown), picks `voices[1]` when the mode is `"Female"` and
more than one voice exists and `voices[0]` otherwise (an `IndexError`,
modelled `none`, when no voices exist), then sets rate from the mode's
settings and volume to 0.9. -/
def _configure_tts_voice (voices : List String) (s : EngineState) :
    Option EngineState :=
  match VOICE_MODES.find? (fun p => p.1 == s.current_voice_mode) with
  | none => none
  | some settings =>
    match voices with
    | [] => none
    | v0 :: rest =>
      let voice :=
        if s.current_voice_mode = "Female" ∧ 1 < (v0 :: rest).length then
          (v0 :: rest).getD 1 v0
        else v0
      some { s with
             tts := { voice := voice, rate := settings.2.1, volume_tenths := 9 } }

/-- `VoiceEngine.set_voice_mode` (`src/voice_engine.py`, lines 26-30):
`if mode in VOICE_MODES:` set `current_voice_mode` and reconfigure the TTS
engine; otherwise do nothing. -/
def set_voice_mode (voices : List String) (mode : String) (s : EngineState) :
    Option EngineState :=
  if mode ∈ VOICE_MODES.map Prod.fst then
    _configure_tts_voice voices { s with current_voice_mode := mode }
  else some s

/-- A concrete engine state as built by `VoiceEngine.__init__`
(`src/voice_engine.py`, lines 13-24): mode `"Male"`, both flags false; the
TTS fields stand for whatever defaults pyttsx3 started with. -/
def engine0 : EngineState :=
  { current_voice_mode := "Male"
    is_listening := false
    is_speaking := false
    tts := { voice := "default", rate := 200, volume_tenths := 10 } }

/-!
### The alien-voice text transform (`VoiceEngine._apply_alien_effects`)

Text is modelled as `List Char`. Python's `text.split()` splits on runs of
whitespace and drops empty pieces; `" ".join(...)` interleaves single
spaces. -/

/-- The negation of the whitespace test, used by the splitter to take one
word. -/
def notWs (c : Char) : Bool := !c.isWhitespace

set_option linter.unusedVariables false in
/-- Python's `text.split()` on `List Char`: skip leading whitespace, take
the maximal run of non-whitespace as a word (the head of the remainder plus
the following run), and continue. Produces no empty words. The named match
hypothesis is needed by the termination argument. -/
def splitWs (l : List Char) : List (List Char) :=
  match hd : l.dropWhile Char.isWhitespace with
  | [] => []
  | c :: cs => (c :: cs.takeWhile notWs) :: splitWs (cs.dropWhile notWs)
termination_by l.length
decreasing_by
  simp_wf
  have h1 : (cs.dropWhile notWs).length ≤ cs.length :=
    (List.dropWhile_sublist notWs).length_le
  have h2 : (c :: cs).length ≤ l.length := by
    rw [← hd]
    exact (List.dropWhile_sublist Char.isWhitespace).length_le
  simp only [List.length_cons] at h2
  omega

/-- `" ".join(words)` on `List Char` words. -/
def joinSpaces : List (List Char) → List Char
  | [] => []
  | [w] => w
  | w :: ws => w ++ ' ' :: joinSpaces ws

/-- The per-word transform inside `VoiceEngine._apply_alien_effects`
(`src/voice_engine.py`, lines 119-133): a word longer than 3 characters
becomes its first two characters, a `'.'`, and the rest; shorter words are
unchanged. -/
def alienWord (w : List Char) : List Char :=
  if w.length > 3 then w.take 2 ++ '.' :: w.drop 2 else w

/-- `VoiceEngine._apply_alien_effects`: split on whitespace, map the
per-word transform (the loop accumulating `alien_words`), and join with
single spaces. -/
def _apply_alien_effects (text : List Char) : List Char :=
  joinSpaces ((splitWs text).map alienWord)

/-! ## Helper lemmas -/

theorem trimHistory_head? (h : List Msg) : (trimHistory h).head? = h.head? := by
  unfold trimHistory
  split
  · rename_i hl
    cases h with
    | nil => simp at hl
    | cons x t => simp
  · rfl

theorem trimHistory_length (h : List Msg) (hl : h.length > 21) :
    (trimHistory h).length = 21 := by
  unfold trimHistory
  rw [if_pos hl]
  cases h with
  | nil => simp at hl
  | cons x t =>
    simp only [List.length_append, List.length_take, List.length_drop]
    simp only [List.length_cons] at hl ⊢
    omega

theorem trimHistory_of_le (h : List Msg) (hl : h.length ≤ 21) :
    trimHistory h = h := by
  unfold trimHistory
  rw [if_neg (by omega)]

theorem trimHistory_length_le21 (h : List Msg) : (trimHistory h).length ≤ 21 := by
  by_cases hl : h.length > 21
  · rw [trimHistory_length h hl]
  · rw [trimHistory_of_le h (by omega)]
    omega

theorem trimHistory_take_one (h : List Msg) : (trimHistory h).take 1 = h.take 1 := by
  unfold trimHistory
  split
  · rename_i hl
    cases h with
    | nil => simp at hl
    | cons x t => simp
  · rfl

theorem get_response_success_length_le (u a : String) (h : List Msg) :
    (get_response_success u a h).length ≤ 21 :=
  trimHistory_length_le21 _

theorem trimHistory_drop_one_suffix (l : List Msg) :
    (trimHistory l).drop 1 <:+ l.drop 1 := by
  unfold trimHistory
  split
  · rename_i hl
    cases l with
    | nil => simp at hl
    | cons x t =>
      simp only [List.length_cons] at hl
      have hk : (x :: t).length - 20 = (t.length - 20) + 1 := by
        simp only [List.length_cons]
        omega
      rw [hk, List.drop_succ_cons]
      simp only [List.take_succ_cons, List.take_zero, List.singleton_append,
        List.drop_succ_cons, List.drop_zero]
      exact List.drop_suffix _ t
  · exact List.suffix_refl _

theorem headSystem_applyOp (h : List Msg) (op : StoreOp) (hh : HeadSystem h) :
    HeadSystem (applyOp h op) := by
  obtain ⟨c, hc⟩ := hh
  cases h with
  | nil => simp at hc
  | cons m t =>
    simp only [List.head?_cons, Option.some.injEq] at hc
    subst hc
    cases op with
    | getSuccess u a =>
      refine ⟨c, ?_⟩
      unfold applyOp get_response_success
      rw [trimHistory_head?]
      simp
    | getFailure u =>
      exact ⟨c, by simp [applyOp, get_response_failure]⟩
    | clear =>
      exact ⟨c, by simp [applyOp, clear_conversation]⟩
    | setPrompt p =>
      exact ⟨p, by simp [applyOp, set_system_prompt]⟩

theorem headSystem_foldl (ops : List StoreOp) (h : List Msg) (hh : HeadSystem h) :
    HeadSystem (ops.foldl applyOp h) := by
  induction ops generalizing h with
  | nil => exact hh
  | cons op ops ih =>
    exact ih (applyOp h op) (headSystem_applyOp h op hh)

theorem runOps_headSystem (ops : List StoreOp) : HeadSystem (runOps ops) :=
  headSystem_foldl ops init_history ⟨SYSTEM_PROMPT, rfl⟩

theorem dropWhile_head_false {α} (p : α → Bool) :
    ∀ (l : List α) c cs, l.dropWhile p = c :: cs → p c = false := by
  intro l
  induction l with
  | nil => intro c cs h; simp at h
  | cons a t ih =>
    intro c cs h
    rw [List.dropWhile_cons] at h
    by_cases hp : p a = true
    · rw [if_pos hp] at h
      exact ih c cs h
    · rw [if_neg hp] at h
      cases h
      simpa using hp

theorem splitWs_of_dropWhile_nil (l : List Char)
    (h : l.dropWhile Char.isWhitespace = []) : splitWs l = [] := by
  rw [splitWs]
  split
  · rfl
  · rename_i c cs heq
    rw [h] at heq
    cases heq

theorem splitWs_of_dropWhile_cons (l : List Char) (c : Char) (cs : List Char)
    (h : l.dropWhile Char.isWhitespace = c :: cs) :
    splitWs l = (c :: cs.takeWhile notWs) :: splitWs (cs.dropWhile notWs) := by
  rw [splitWs]
  split
  · rename_i heq
    rw [h] at heq
    cases heq
  · rename_i c' cs' heq
    rw [h] at heq
    injection heq with h1 h2
    subst h1
    subst h2
    rfl

theorem splitWs_cons_of_ws (c : Char) (l : List Char)
    (hc : c.isWhitespace = true) : splitWs (c :: l) = splitWs l := by
  have hd : (c :: l).dropWhile Char.isWhitespace =
      l.dropWhile Char.isWhitespace := by
    rw [List.dropWhile_cons, if_pos hc]
  cases h : l.dropWhile Char.isWhitespace with
  | nil =>
    rw [splitWs_of_dropWhile_nil _ (by rw [hd, h]),
      splitWs_of_dropWhile_nil _ h]
  | cons c' cs' =>
    rw [splitWs_of_dropWhile_cons (c :: l) c' cs' (by rw [hd, h]),
      splitWs_of_dropWhile_cons l c' cs' h]

theorem mem_takeWhile_pred {α} (p : α → Bool) :
    ∀ (l : List α) a, a ∈ l.takeWhile p → p a = true := by
  intro l
  induction l with
  | nil => intro a h; simp at h
  | cons x t ih =>
    intro a h
    rw [List.takeWhile_cons] at h
    by_cases hp : p x = true
    · rw [if_pos hp] at h
      rcases List.mem_cons.mp h with h | h
      · subst h; exact hp
      · exact ih a h
    · rw [if_neg hp] at h
      simp at h

theorem takeWhile_of_all {α} (p : α → Bool) :
    ∀ (l : List α), (∀ a ∈ l, p a = true) → l.takeWhile p = l := by
  intro l
  induction l with
  | nil => intro _; rfl
  | cons x t ih =>
    intro hall
    rw [List.takeWhile_cons, if_pos (hall x (by simp))]
    rw [ih (fun a ha => hall a (by simp [ha]))]

theorem dropWhile_of_all {α} (p : α → Bool) :
    ∀ (l : List α), (∀ a ∈ l, p a = true) → l.dropWhile p = [] := by
  intro l
  induction l with
  | nil => intro _; rfl
  | cons x t ih =>
    intro hall
    rw [List.dropWhile_cons, if_pos (hall x (by simp))]
    exact ih (fun a ha => hall a (by simp [ha]))

theorem takeWhile_append_of_all {α} (p : α → Bool) :
    ∀ (w t : List α), (∀ a ∈ w, p a = true) →
      (w ++ t).takeWhile p = w ++ t.takeWhile p := by
  intro w
  induction w with
  | nil => intro t _; rfl
  | cons x s ih =>
    intro t hall
    rw [List.cons_append, List.takeWhile_cons, if_pos (hall x (by simp))]
    rw [ih t (fun a ha => hall a (by simp [ha]))]
    rfl

theorem dropWhile_append_of_all {α} (p : α → Bool) :
    ∀ (w t : List α), (∀ a ∈ w, p a = true) →
      (w ++ t).dropWhile p = t.dropWhile p := by
  intro w
  induction w with
  | nil => intro t _; rfl
  | cons x s ih =>
    intro t hall
    rw [List.cons_append, List.dropWhile_cons, if_pos (hall x (by simp))]
    exact ih t (fun a ha => hall a (by simp [ha]))

/-- Every word produced by the splitter is non-empty and free of
whitespace. -/
theorem splitWs_words (l : List Char) :
    ∀ w ∈ splitWs l, w ≠ [] ∧ ∀ c ∈ w, c.isWhitespace = false := by
  induction l using splitWs.induct with
  | case1 l hd =>
    rw [splitWs_of_dropWhile_nil l hd]
    intro w hw
    simp at hw
  | case2 l c cs hd ih =>
    rw [splitWs_of_dropWhile_cons l c cs hd]
    intro w hw
    rcases List.mem_cons.mp hw with hw | hw
    · subst hw
      have hc : Char.isWhitespace c = false := dropWhile_head_false _ l c cs hd
      refine ⟨by simp, ?_⟩
      intro x hx
      rcases List.mem_cons.mp hx with hx | hx
      · subst hx
        exact hc
      · have := mem_takeWhile_pred notWs _ x hx
        simpa [notWs] using this
    · exact ih w hw

/-- Joining non-empty whitespace-free words with single spaces and
re-splitting recovers exactly the word list. -/
theorem splitWs_joinSpaces :
    ∀ ws : List (List Char),
      (∀ w ∈ ws, w ≠ [] ∧ ∀ c ∈ w, c.isWhitespace = false) →
      splitWs (joinSpaces ws) = ws := by
  intro ws
  induction ws with
  | nil =>
    intro _
    exact splitWs_of_dropWhile_nil [] rfl
  | cons w ws ih =>
    intro hall
    obtain ⟨hw_ne, hw_chars⟩ := hall w (by simp)
    obtain ⟨c, cs, rfl⟩ := List.exists_cons_of_ne_nil hw_ne
    have hc : Char.isWhitespace c = false := hw_chars c (by simp)
    have hnotWs_all : ∀ a ∈ c :: cs, notWs a = true := by
      intro a ha
      simp [notWs, hw_chars a ha]
    have hcs_all : ∀ a ∈ cs, notWs a = true := by
      intro a ha
      exact hnotWs_all a (by simp [ha])
    cases ws with
    | nil =>
      show splitWs (c :: cs) = [c :: cs]
      have hd : (c :: cs).dropWhile Char.isWhitespace = c :: cs := by
        rw [List.dropWhile_cons, if_neg (by simp [hc])]
      rw [splitWs_of_dropWhile_cons _ c cs hd,
        takeWhile_of_all notWs cs hcs_all,
        dropWhile_of_all notWs cs hcs_all,
        splitWs_of_dropWhile_nil [] rfl]
    | cons w2 ws2 =>
      have hj : joinSpaces ((c :: cs) :: w2 :: ws2) =
          c :: (cs ++ ' ' :: joinSpaces (w2 :: ws2)) := rfl
      rw [hj]
      have hd : (c :: (cs ++ ' ' :: joinSpaces (w2 :: ws2))).dropWhile
          Char.isWhitespace = c :: (cs ++ ' ' :: joinSpaces (w2 :: ws2)) := by
        rw [List.dropWhile_cons, if_neg (by simp [hc])]
      rw [splitWs_of_dropWhile_cons _ c _ hd,
        takeWhile_append_of_all notWs cs _ hcs_all,
        dropWhile_append_of_all notWs cs _ hcs_all,
        List.takeWhile_cons, if_neg (by simp [notWs]),
        List.dropWhile_cons, if_neg (by simp [notWs]),
        List.append_nil,
        splitWs_cons_of_ws ' ' _ (by simp),
        ih (fun x hx => hall x (by simp [hx]))]

theorem alienWord_ne_nil (w : List Char) (hw : w ≠ []) : alienWord w ≠ [] := by
  unfold alienWord
  split
  · simp
  · exact hw

theorem alienWord_no_ws (w : List Char)
    (hw : ∀ c ∈ w, c.isWhitespace = false) :
    ∀ c ∈ alienWord w, c.isWhitespace = false := by
  unfold alienWord
  split
  · intro x hx
    rcases List.mem_append.mp hx with hx | hx
    · exact hw x (List.take_subset 2 w hx)
    · rcases List.mem_cons.mp hx with hx | hx
      · subst hx; decide
      · exact hw x (List.drop_subset 2 w hx)
  · exact hw

/-! ## Claim theorems: conversation store -/

/-- C3: a history longer than 21 entries is trimmed to exactly 21 — the
entry at index 0 plus the most recent 20 — and a history of fewer than 21
entries is left unchanged (so its System message is not evicted). -/
theorem C3_trim_keeps_system_plus_recent (h : List Msg) :
    (h.length > 21 →
      (trimHistory h).length = 21 ∧
      (trimHistory h).take 1 = h.take 1 ∧
      (trimHistory h).drop 1 = h.drop (h.length - 20)) ∧
    (h.length < 21 → trimHistory h = h) := by
  constructor
  · intro hl
    refine ⟨trimHistory_length h hl, trimHistory_take_one h, ?_⟩
    unfold trimHistory
    rw [if_pos hl]
    cases h with
    | nil => simp at hl
    | cons x t => simp
  · intro hl
    exact trimHistory_of_le h (by omega)

/-- Witness for C3 at concrete histories of length 22 and 3. -/
theorem C3_trim_witness :
    ((trimHistory hist22).length = 21 ∧
      (trimHistory hist22).take 1 = hist22.take 1 ∧
      (trimHistory hist22).drop 1 = hist22.drop (hist22.length - 20)) ∧
    trimHistory hist3 = hist3 :=
  ⟨(C3_trim_keeps_system_plus_recent hist22).1 (by decide),
   (C3_trim_keeps_system_plus_recent hist3).2 (by decide)⟩

/-- C4 counterexample: a failed `get_response` completion leaves the history
above the cap — starting from the 21-entry history `hist21`, the failure path
appends the user message without trimming, ending at 22 entries. -/
theorem C4_cap_counterexample :
    hist21.length = 21 ∧ (get_response_failure "hi" hist21).length = 22 := by
  decide

/-- C4 amended: after every successful `get_response` completion the history
is at most 21 entries, the entry at index 0 is kept, and what remains after
it is a suffix of the appended history (so only oldest entries after the
System message are evicted); `clear_conversation` also respects the cap. A
failed `get_response` grows the history by exactly one (the User message)
with no trim, so it can exceed the cap. -/
theorem C4_cap_after_success_and_clear (u a : String) (h : List Msg) :
    (get_response_success u a h).length ≤ 21 ∧
    (get_response_success u a h).take 1 =
      ((h ++ [Msg.mk Role.user u]) ++ [Msg.mk Role.assistant a]).take 1 ∧
    ((get_response_success u a h).drop 1) <:+
      (((h ++ [Msg.mk Role.user u]) ++ [Msg.mk Role.assistant a]).drop 1) ∧
    (clear_conversation h).length ≤ 21 ∧
    (get_response_failure u h).length = h.length + 1 := by
  refine ⟨get_response_success_length_le u a h, trimHistory_take_one _,
    trimHistory_drop_one_suffix _, ?_, ?_⟩
  · unfold clear_conversation
    exact le_trans (List.length_take_le 1 h) (by omega)
  · simp [get_response_failure]

/-- C5: over every sequence of store operations (`get_response` success or
failure, `clear_conversation`, `set_system_prompt`) starting from the
constructed history, the first element exists and has role `system`. -/
theorem C5_first_is_system (ops : List StoreOp) :
    ∃ c, (runOps ops).head? = some ⟨Role.system, c⟩ :=
  runOps_headSystem ops

/-- C6: clearing the history after any sequence of store operations leaves
exactly one message, the System message. -/
theorem C6_clear_roundtrip (ops : List StoreOp) :
    ∃ c, clear_conversation (runOps ops) = [⟨Role.system, c⟩] := by
  obtain ⟨c, hc⟩ := runOps_headSystem ops
  cases hh : runOps ops with
  | nil => rw [hh] at hc; simp at hc
  | cons m t =>
    rw [hh] at hc
    simp only [List.head?_cons, Option.some.injEq] at hc
    exact ⟨c, by simp [clear_conversation, ← hc]⟩

/-! ## Claim theorems: interaction controller -/

/-- C1 counterexample: in the reachable Processing state `sProc` (completion
call in flight, listen thread exited), a circle click is not a no-op — the
guard in `on_circle_clicked` only checks `is_listening or is_speaking`, so
the click starts a second speech-input call while the completion call is
still outstanding. -/
theorem C1_trigger_counterexample :
    sProc.is_processing = true ∧ sProc.is_listening = false ∧
    sProc.is_speaking = false ∧
    (on_circle_clicked sProc).is_listening = true ∧
    (on_circle_clicked sProc).is_processing = true ∧
    on_circle_clicked sProc ≠ sProc :=
  ⟨by decide, by decide, by decide, by decide, by decide,
   fun hEq => absurd (congrArg AppState.is_listening hEq) (by decide)⟩

/-- C1 amended: a trigger while `is_listening` or `is_speaking` is set
(Listening or Speaking) is a no-op; but a trigger while both flags are clear
— which includes the Processing state — is accepted and starts a
speech-input call, leaving the processing flag as it was. -/
theorem C1_trigger_noop_only_listening_or_speaking (s : AppState) :
    ((s.is_listening = true ∨ s.is_speaking = true) → on_circle_clicked s = s) ∧
    (s.is_listening = false → s.is_speaking = false →
      (on_circle_clicked s).is_listening = true ∧
      (on_circle_clicked s).is_processing = s.is_processing ∧
      (on_circle_clicked s).conversation_history = s.conversation_history) := by
  constructor
  · intro hb
    unfold on_circle_clicked
    rcases hb with hb | hb <;> simp [hb]
  · intro hl hs
    unfold on_circle_clicked
    simp [hl, hs]

/-- Witness for the C1 amendment: a click while listening is a no-op, and a
click in the Processing state `sProc` starts listening while the completion
call is still flagged in flight. -/
theorem C1_trigger_witness :
    on_circle_clicked sListen = sListen ∧
    ((on_circle_clicked sProc).is_listening = true ∧
      (on_circle_clicked sProc).is_processing = sProc.is_processing ∧
      (on_circle_clicked sProc).conversation_history = sProc.conversation_history) :=
  ⟨(C1_trigger_noop_only_listening_or_speaking sListen).1 (Or.inl rfl),
   (C1_trigger_noop_only_listening_or_speaking sProc).2 rfl rfl⟩

/-- C2 counterexample: in the reachable Speaking state `sSpeak`, a playback
failure (`speak_thread`'s `except` branch) produces no error notification
and no return of the presentation state to idle — the labels and the circle
state are untouched (the circle is still `"processing"`); only the
`is_speaking` flag is cleared. -/
theorem C2_error_edge_counterexample :
    sSpeak.is_speaking = true ∧
    (on_tts_error sSpeak).circle_state = "processing" ∧
    (on_tts_error sSpeak).circle_state ≠ "idle" ∧
    (on_tts_error sSpeak).status_label = sSpeak.status_label ∧
    (on_tts_error sSpeak).status_label = "Speaking response..." ∧
    (on_tts_error sSpeak).status_bar = "Playing AI response..." := by
  decide

/-- C2 amended: transcription and completion failures each return the
presentation to idle with an error label and clear their busy flag, and a
playback success returns to idle; but a playback failure only clears the
`is_speaking` flag — it delivers no error notification and leaves the
presentation state (labels and circle) unchanged. -/
theorem C2_error_edges (s : AppState) (err e : String) :
    ((on_speech_error err s).circle_state = "idle" ∧
      (on_speech_error err s).is_listening = false ∧
      (on_speech_error err s).status_label = "Error: " ++ err ∧
      (on_speech_error err s).status_bar = "Ready") ∧
    ((on_ai_error e s).circle_state = "idle" ∧
      (on_ai_error e s).is_processing = false ∧
      (on_ai_error e s).status_label = "AI Error: " ++ ("AI Error: " ++ e) ∧
      (on_ai_error e s).status_bar = "Ready") ∧
    ((on_speech_complete s).circle_state = "idle" ∧
      (on_speech_complete s).is_speaking = false) ∧
    ((on_tts_error s).is_speaking = false ∧
      (on_tts_error s).circle_state = s.circle_state ∧
      (on_tts_error s).status_label = s.status_label ∧
      (on_tts_error s).status_bar = s.status_bar) :=
  ⟨⟨rfl, rfl, rfl, rfl⟩, ⟨rfl, rfl, rfl, rfl⟩, ⟨rfl, rfl⟩, ⟨rfl, rfl, rfl, rfl⟩⟩

/-- C7: when the completion call fails after a successful transcription of a
non-empty `u`, the controller returns to idle with the error surfaced, the
User message for the cycle remains as the only history change, and no
Assistant message is appended. -/
theorem C7_completion_failure_consistency (s : AppState) (u e : String)
    (hu : u ≠ "") :
    (on_ai_error e (on_speech_recognized u s)).conversation_history =
      s.conversation_history ++ [Msg.mk Role.user u] ∧
    (on_ai_error e (on_speech_recognized u s)).circle_state = "idle" ∧
    (on_ai_error e (on_speech_recognized u s)).status_bar = "Ready" ∧
    (on_ai_error e (on_speech_recognized u s)).status_label =
      "AI Error: " ++ ("AI Error: " ++ e) ∧
    (on_ai_error e (on_speech_recognized u s)).is_processing = false ∧
    ((on_ai_error e (on_speech_recognized u s)).conversation_history.filter
        (fun m => m.role == Role.assistant)) =
      (s.conversation_history.filter (fun m => m.role == Role.assistant)) := by
  unfold on_ai_error on_speech_recognized
  rw [if_pos hu]
  refine ⟨rfl, rfl, rfl, rfl, rfl, ?_⟩
  simp [List.filter_append]

/-- Witness for C7 at the initial state with transcription "hello" and a
completion failure "boom". -/
theorem C7_completion_failure_witness :
    (on_ai_error "boom" (on_speech_recognized "hello" initialState)).conversation_history =
      initialState.conversation_history ++ [Msg.mk Role.user "hello"] ∧
    (on_ai_error "boom" (on_speech_recognized "hello" initialState)).circle_state = "idle" ∧
    (on_ai_error "boom" (on_speech_recognized "hello" initialState)).status_bar = "Ready" ∧
    (on_ai_error "boom" (on_speech_recognized "hello" initialState)).status_label =
      "AI Error: " ++ ("AI Error: " ++ "boom") ∧
    (on_ai_error "boom" (on_speech_recognized "hello" initialState)).is_processing = false ∧
    ((on_ai_error "boom" (on_speech_recognized "hello" initialState)).conversation_history.filter
        (fun m => m.role == Role.assistant)) =
      (initialState.conversation_history.filter (fun m => m.role == Role.assistant)) :=
  C7_completion_failure_consistency initialState "hello" "boom" (by decide)

/-- C9 counterexample: the code tags no callback with a cycle id. After
`stop_speaking` has already returned the controller to idle
(`is_speaking = false`), the speech-output completion callback still arrives
and is processed — it rewrites the status label and the circle state, i.e. a
stale callback does produce a state transition. -/
theorem C9_stale_callback_counterexample :
    (stop_speaking sSpeak).is_speaking = false ∧
    (on_speech_complete (stop_speaking sSpeak)).status_label ≠
      (stop_speaking sSpeak).status_label ∧
    (on_speech_complete (stop_speaking sSpeak)).circle_state ≠
      (stop_speaking sSpeak).circle_state := by
  decide

/-- C9 amended: there is no cycle-id mechanism; a speech-output completion
arriving after `stop_speaking` is still processed and resets the
presentation state to idle, but it never mutates the conversation history,
and `stop_speaking` itself clears the speaking flag immediately. -/
theorem C9_stale_callback_processed (s : AppState) :
    (stop_speaking s).is_speaking = false ∧
    (on_speech_complete (stop_speaking s)).conversation_history =
      s.conversation_history ∧
    (on_speech_complete (stop_speaking s)).circle_state = "idle" ∧
    (on_speech_complete (stop_speaking s)).status_label =
      "Click the circle to start voice interaction" :=
  ⟨rfl, rfl, rfl, rfl⟩

/-! ## Claim theorems: voice engine -/

/-- C8: selecting a mode outside `{Male, Female, Alien}` is a no-op leaving
the engine (including its voice configuration) unchanged; selecting a known
mode (with at least one TTS voice available) succeeds and mutates only the
mode and the TTS configuration — never the busy flags of the interaction
controller; the conversation history lives in `AIAssistant`, which
`set_voice_mode` cannot reach at all. -/
theorem C8_set_voice_mode_footprint (voices : List String) (mode : String)
    (s : EngineState) :
    (mode ∉ VOICE_MODES.map Prod.fst → set_voice_mode voices mode s = some s) ∧
    (mode ∈ VOICE_MODES.map Prod.fst → voices ≠ [] →
      ∃ s', set_voice_mode voices mode s = some s' ∧
        s'.is_listening = s.is_listening ∧
        s'.is_speaking = s.is_speaking ∧
        s'.current_voice_mode = mode) := by
  constructor
  · intro hm
    unfold set_voice_mode
    rw [if_neg hm]
  · intro hm hv
    match voices, hv with
    | v0 :: rest, _ =>
      unfold set_voice_mode
      rw [if_pos hm]
      simp only [VOICE_MODES, List.map, List.mem_cons, List.not_mem_nil,
        or_false] at hm
      rcases hm with hm | hm | hm <;> subst hm <;>
        exact ⟨_, rfl, rfl, rfl, rfl⟩

/-- Witness for C8: the unknown mode "Robot" is a no-op on a concrete engine
state, and selecting "Alien" succeeds there and leaves the busy flags
untouched. -/
theorem C8_set_voice_mode_witness :
    set_voice_mode ["v0"] "Robot" engine0 = some engine0 ∧
    ∃ s', set_voice_mode ["v0"] "Alien" engine0 = some s' ∧
      s'.is_listening = engine0.is_listening ∧
      s'.is_speaking = engine0.is_speaking ∧
      s'.current_voice_mode = "Alien" :=
  ⟨(C8_set_voice_mode_footprint ["v0"] "Robot" engine0).1 (by decide),
   (C8_set_voice_mode_footprint ["v0"] "Alien" engine0).2 (by decide)
     (by decide)⟩

/-- C10: the alien-voice transform splits the text into whitespace-separated
words, rewrites each word independently (`alienWord`: unchanged when of
length at most 3, otherwise first two characters, a dot, then the rest), and
rejoins with single spaces — so re-splitting its output yields exactly the
transformed word list, and in particular the word count is preserved. -/
theorem C10_alien_effects_wordwise (text : List Char) :
    splitWs (_apply_alien_effects text) = (splitWs text).map alienWord ∧
    (splitWs (_apply_alien_effects text)).length = (splitWs text).length ∧
    (∀ w, 3 < w.length → alienWord w = w.take 2 ++ '.' :: w.drop 2) ∧
    (∀ w, w.length ≤ 3 → alienWord w = w) := by
  have hmain : splitWs (_apply_alien_effects text) =
      (splitWs text).map alienWord := by
    unfold _apply_alien_effects
    apply splitWs_joinSpaces
    intro w hw
    obtain ⟨w0, hw0, rfl⟩ := List.mem_map.mp hw
    obtain ⟨h1, h2⟩ := splitWs_words text w0 hw0
    exact ⟨alienWord_ne_nil w0 h1, alienWord_no_ws w0 h2⟩
  refine ⟨hmain, by rw [hmain, List.length_map], ?_, ?_⟩
  · intro w hw
    unfold alienWord
    rw [if_pos hw]
  · intro w hw
    unfold alienWord
    rw [if_neg (by omega)]

/-- Witness for C10 on the concrete text "hi alien": the rejoined output
re-splits to the transformed words, the long word gains a dot after its
first two characters, and the short word is unchanged. -/
theorem C10_alien_effects_witness :
    splitWs (_apply_alien_effects "hi alien".toList) =
      (splitWs "hi alien".toList).map alienWord ∧
    alienWord "alien".toList =
      "alien".toList.take 2 ++ '.' :: "alien".toList.drop 2 ∧
    alienWord "hi".toList = "hi".toList :=
  ⟨(C10_alien_effects_wordwise "hi alien".toList).1,
   (C10_alien_effects_wordwise "hi alien".toList).2.2.1 "alien".toList
     (by decide),
   (C10_alien_effects_wordwise "hi alien".toList).2.2.2 "hi".toList
     (by decide)⟩

end VoiceAssistant
